import Mathlib

/-!
Shallow embedding of the calendso availability endpoints.

Two request handlers are modelled:
* the slot-fetch variant (`src/pages/api/availability/[user]/slot.ts`), and
* the availability variant (`src/unnamed/part_000`).

Both share the schedule-to-working-hours construction (`workhours`,
`workingHours`), the JavaScript `Array.prototype.sort` call on working
hours, and the slot-selection filter (`selectedSlots`).

Modelling conventions:
* absolute instants are integers (milliseconds since the Unix epoch,
  which fell on a Thursday);
* a timezone is interpreted through a database `tzdb : String → Int → Int`
  giving the UTC offset in milliseconds at a given instant (the IANA
  database consulted by dayjs is external input);
* JavaScript `NaN` propagation through `parseInt`/`*`/`+` is modelled by
  `Option Int`, with `none` playing the role of `NaN`: arithmetic on
  `none` yields `none` and every ordering comparison against `none` is
  `false`, exactly as for `NaN`;
* database queries (`prisma.user.findUnique`, `prisma.booking.findMany`)
  are modelled by an `Option User` lookup result and by filtering a list
  of booking rows with the query's `where` clause.
-/

/-- One `{start, end}` entry of a day's free-busy list (strings "HH:MM"). -/
structure TimeStr where
  start : String
  «end» : String
deriving DecidableEq, Repr

/-- The `freeBusyTimes` JSON object: an optional list of entries per weekday name. -/
structure FreeBusy where
  sunday : Option (List TimeStr)
  monday : Option (List TimeStr)
  tuesday : Option (List TimeStr)
  wednesday : Option (List TimeStr)
  thursday : Option (List TimeStr)
  friday : Option (List TimeStr)
  saturday : Option (List TimeStr)
deriving DecidableEq, Repr

/-- Index the free-busy object by weekday number, following the source's
`days = ["sunday", …, "saturday"]` array (0 = Sunday). Out-of-range
indices read as absent, as JavaScript property access would. -/
def FreeBusy.get (fb : FreeBusy) : Nat → Option (List TimeStr)
  | 0 => fb.sunday
  | 1 => fb.monday
  | 2 => fb.tuesday
  | 3 => fb.wednesday
  | 4 => fb.thursday
  | 5 => fb.friday
  | 6 => fb.saturday
  | _ => none

/-- A row of the `Schedule` relation as selected by the handlers
(`select: { freeBusyTimes: true }`); the JSON column may be null. -/
structure Schedule where
  freeBusyTimes : Option FreeBusy
deriving DecidableEq, Repr

/-- The user row as selected by the handlers (fields not used by the
availability computation are omitted). `startTime`/`endTime` are the
stored default start and end minutes of day. -/
structure User where
  id : Int
  timeZone : String
  startTime : Int
  endTime : Int
  schedule : List Schedule
  minimumBookingNotice : Int
deriving DecidableEq, Repr

/-- A booking row (`userId`, `status`, `confirmed`, `startTime`, `endTime`);
instants in milliseconds. -/
structure Booking where
  userId : Int
  status : String
  confirmed : Bool
  startTime : Int
  endTime : Int
deriving DecidableEq, Repr

/-- JavaScript `String.prototype.split` with a single-character separator,
on the character list: `"" ↦ [""]`, `"9" ↦ ["9"]`, `"9:" ↦ ["9",""]`. -/
def splitOnChar (sep : Char) : List Char → List (List Char)
  | [] => [[]]
  | c :: cs =>
    match splitOnChar sep cs, decide (c = sep) with
    | r, true => [] :: r
    | [], false => [[c]]
    | p :: ps, false => (c :: p) :: ps

/-- JavaScript `parseInt` restricted to its radix-10 behaviour on the
strings at hand: skip leading whitespace, read an optional sign and then
leading decimal digits; no digits (including `parseInt(undefined)`,
modelled by the `none` argument) gives `NaN`, modelled by `none`. -/
def parseIntJs : Option (List Char) → Option Int
  | none => none
  | some s =>
    let s1 := s.dropWhile (fun c => c.isWhitespace)
    let (sign, s2) :=
      match s1 with
      | '-' :: rest => ((-1 : Int), rest)
      | '+' :: rest => ((1 : Int), rest)
      | _ => ((1 : Int), s1)
    let ds := s2.takeWhile (fun c => c.isDigit)
    if ds.isEmpty then none
    else some (sign * (Int.ofNat (ds.foldl (fun a c => a * 10 + (c.toNat - 48)) 0)))

/-- `NaN`-propagating multiplication on JavaScript numbers. -/
def nmul : Option Int → Option Int → Option Int
  | some x, some y => some (x * y)
  | _, _ => none

/-- `NaN`-propagating addition on JavaScript numbers. -/
def nadd : Option Int → Option Int → Option Int
  | some x, some y => some (x + y)
  | _, _ => none

/-- JavaScript `<=` on possibly-`NaN` numbers: any comparison with `NaN`
is false. -/
def nle : Option Int → Option Int → Bool
  | some x, some y => decide (x ≤ y)
  | _, _ => false

/-- JavaScript `>=` on possibly-`NaN` numbers. -/
def nge (a b : Option Int) : Bool := nle b a

/-- A working-hours interval as built by the handlers:
`{days: [..], startTime, endTime}` with minute-of-day values that may be
`NaN` (`none`) when parsing failed. -/
structure WeeklyInterval where
  days : List Int
  startTime : Option Int
  endTime : Option Int
deriving DecidableEq, Repr

/-- Translate one `{start, end}` entry of weekday `idx` into an interval:
`parseInt(start[0]) * 60 + parseInt(start[1])` and likewise for `end`,
after splitting each string on `":"`. -/
def parseTime (idx : Int) (t : TimeStr) : WeeklyInterval :=
  let start := splitOnChar ':' t.start.toList
  let endParts := splitOnChar ':' t.«end».toList
  { days := [idx]
    startTime := nadd (nmul (parseIntJs start[0]?) (some 60)) (parseIntJs start[1]?)
    endTime := nadd (nmul (parseIntJs endParts[0]?) (some 60)) (parseIntJs endParts[1]?) }

/-- The intervals one schedule row contributes for weekday `i`:
`schedule.freeBusyTimes?.[day]?.map(...) ?? []`. -/
def dayIntervals (s : Schedule) (i : Nat) : List WeeklyInterval :=
  match s.freeBusyTimes with
  | none => []
  | some fb =>
    match fb.get i with
    | none => []
    | some ts => ts.map (parseTime (Int.ofNat i))

/-- All intervals contributed by one schedule row: the `days.forEach`
loop pushing each weekday's mapped entries. -/
def scheduleIntervals (s : Schedule) : List WeeklyInterval :=
  ((List.range 7).map (dayIntervals s)).flatten

/-- The `rawUser.Schedule.reduce` accumulation over all schedule rows. -/
def workhours (sl : List Schedule) : List WeeklyInterval :=
  sl.foldl (fun acc s => acc ++ scheduleIntervals s) []

/-- The fallback interval built from the user's stored default start/end,
applying to all seven weekdays. -/
def defaultAvailability (u : User) : WeeklyInterval :=
  { days := [0, 1, 2, 3, 4, 5, 6]
    startTime := some u.startTime
    endTime := some u.endTime }

/-- `workhours?.length ? workhours : [defaultAvailability]`. -/
def workingHours (u : User) : List WeeklyInterval :=
  if (workhours u.schedule).length ≠ 0 then workhours u.schedule
  else [defaultAvailability u]

/-- The comparator semantics of `workingHours.sort((a, b) => a.startTime - b.startTime)`
as a boolean "may come before": for numeric start times, numeric order;
when either operand is `NaN` the comparator returns `NaN`, which
`Array.prototype.sort` treats as `0` (equal), so order is kept. -/
def slotLe (a b : WeeklyInterval) : Bool :=
  match a.startTime, b.startTime with
  | some x, some y => decide (x ≤ y)
  | _, _ => true

/-- Stable insertion of `a` before the first element `b` with `le a b`. -/
def insertLe (le : α → α → Bool) (a : α) : List α → List α
  | [] => [a]
  | b :: bs => if le a b then a :: b :: bs else b :: insertLe le a bs

/-- A stable comparison sort, modelling `Array.prototype.sort` (stable
per the ECMAScript specification). -/
def jsSort (le : α → α → Bool) (l : List α) : List α :=
  l.foldr (insertLe le) []

/-- Local wall-clock milliseconds of an instant under an offset function
(`tzdb timeZone`). -/
def localMs (off : Int → Int) (t : Int) : Int := t + off t

/-- dayjs `.tz(timeZone).day()`: local weekday, 0 = Sunday; the epoch day
was a Thursday (4). -/
def weekday (off : Int → Int) (t : Int) : Int :=
  (localMs off t / 86400000 + 4) % 7

/-- dayjs `.tz(timeZone).hour() * 60 + .tz(timeZone).minute()`: the local
minute of day. -/
def minuteOfDay (off : Int → Int) (t : Int) : Int :=
  localMs off t % 86400000 / 60000

/-- dayjs `dateTo.diff(dateFrom, "hours")`: millisecond difference divided
by an hour, truncated toward zero. -/
def jsDiffHours (f t : Int) : Int :=
  if 0 ≤ t - f then (t - f) / 3600000 else -((f - t) / 3600000)

/-- The shared slot-selection predicate of both handlers. -/
def slotMatches (day fm tm : Int) (s : WeeklyInterval) : Bool :=
  s.days.contains day &&
    nge (some fm) s.startTime && nle (some fm) s.endTime &&
    nge (some tm) s.startTime && nle (some tm) s.endTime

/-- `workingHours.filter(slot => …)`: the slots matching the request
window, in the order of the (sorted) working-hours list. -/
def selectedSlots (wh : List WeeklyInterval) (day fm tm : Int) : List WeeklyInterval :=
  wh.filter (slotMatches day fm tm)

/-- A `busy` entry: a booking's start and end as local minutes of day. -/
structure BusyPair where
  startTime : Int
  endTime : Int
deriving DecidableEq, Repr

/-- The `prisma.booking.findMany` query of the slot-fetch handler: rows of
the user with status `"ACCEPTED"`, `confirmed: true`, and a start instant
between `dateFrom` and `dateTo` inclusive. -/
def queryBookings (db : List Booking) (uid f t : Int) : List Booking :=
  db.filter (fun b =>
    b.userId == uid && b.status == "ACCEPTED" && b.confirmed &&
      decide (f ≤ b.startTime) && decide (b.startTime ≤ t))

/-- The `busy` projection of one booking row. -/
def busyOf (off : Int → Int) (b : Booking) : BusyPair :=
  { startTime := minuteOfDay off b.startTime
    endTime := minuteOfDay off b.endTime }

/-- The request after query-string extraction: each date is `some` parsed
instant when dayjs accepts it, `none` when `isValid()` is false. -/
structure ApiRequest where
  dateFrom : Option Int
  dateTo : Option Int
deriving DecidableEq, Repr

/-- Responses of the slot-fetch handler, one constructor per terminal
`res.status(...).json(...)` call. -/
inductive SlotResponse where
  | invalidRange
  | slotTooLong
  | userNotFound
  | pastBooking
  | insufficientNotice
  | ok (timeZone : String) (busy : List BusyPair)
      (selectedSlots : List WeeklyInterval) (available : Bool)
deriving DecidableEq, Repr

/-- The slot-fetch handler (`src/pages/api/availability/[user]/slot.ts`),
with the clock (`now`), the user-lookup result and the booking table as
explicit inputs. -/
def slotHandler (tzdb : String → Int → Int) (now : Int) (lookupUser : Option User)
    (db : List Booking) (req : ApiRequest) : SlotResponse :=
  match req.dateFrom, req.dateTo with
  | some f, some t =>
    if t < f then .invalidRange
    else if 24 ≤ jsDiffHours f t then .slotTooLong
    else
      match lookupUser with
      | none => .userNotFound
      | some u =>
        if f < now then .pastBooking
        else if u.minimumBookingNotice ≠ 0 ∧ f < now + u.minimumBookingNotice * 60000 then
          .insufficientNotice
        else
          let off := tzdb u.timeZone
          let wh := jsSort slotLe (workingHours u)
          let day := weekday off f
          let fm := minuteOfDay off f
          let tm := minuteOfDay off t
          let sel := selectedSlots wh day fm tm
          let bookings := queryBookings db u.id f t
          .ok u.timeZone (bookings.map (busyOf off)) sel
            (!sel.isEmpty && bookings.isEmpty)
  | _, _ => .invalidRange

/-- Responses of the availability handler: the 400 for an invalid range,
the unhandled `throw new Error("No user found")`, and the 200 payload. -/
inductive AvailResponse where
  | invalidRange
  | userError
  | ok (timeZone : String) (workingHours : List WeeklyInterval) (available : Bool)
deriving DecidableEq, Repr

/-- The availability handler (`src/unnamed/part_000`): only the range
check, then resolution; no clock, no booking query, no 24-hour cap. -/
def availHandler (tzdb : String → Int → Int) (lookupUser : Option User)
    (req : ApiRequest) : AvailResponse :=
  match req.dateFrom, req.dateTo with
  | some f, some t =>
    if t < f then .invalidRange
    else
      match lookupUser with
      | none => .userError
      | some u =>
        let off := tzdb u.timeZone
        let wh := jsSort slotLe (workingHours u)
        let sel := selectedSlots wh (weekday off f) (minuteOfDay off f) (minuteOfDay off t)
        .ok u.timeZone sel (!sel.isEmpty)
  | _, _ => .invalidRange

/-- The availability flag of a slot-fetch response, when the request
reached the 200 branch. -/
def SlotResponse.availableOf : SlotResponse → Option Bool
  | .ok _ _ _ a => some a
  | _ => none

/-- The ownership/status part of the booking query's `where` clause. -/
def bookingQualifies (u : User) (b : Booking) : Bool :=
  b.userId == u.id && b.status == "ACCEPTED" && b.confirmed

/-- Interval overlap between a booking and the request window `[f, t]`:
the booking touches the window. -/
def touchesWindow (b : Booking) (f t : Int) : Bool :=
  decide (b.startTime ≤ t) && decide (f ≤ b.endTime)

/-- An all-UTC timezone database (offset 0 everywhere), used for concrete
evaluations. -/
def utcdb : String → Int → Int := fun _ _ => 0

/-- A user with an empty schedule and stored default hours
09:00-17:00 (minutes 540-1020), timezone UTC. -/
def demoUser : User := ⟨1, "UTC", 540, 1020, [], 0⟩

/-- A confirmed accepted booking of `demoUser` running 09:50-10:10 UTC on
1970-01-01: it starts 10 minutes before the 10:00-10:30 demo window and
ends inside it. -/
def overlappingBooking : Booking := ⟨1, "ACCEPTED", true, 35400000, 36600000⟩

/-- A free-busy object whose Monday list holds the malformed entry
`{start: "9", end: "17:00"}` (no colon-delimited minute). -/
def malformedFreeBusy : FreeBusy :=
  ⟨none, some [⟨"9", "17:00"⟩], none, none, none, none, none⟩

/-- A user whose single schedule row carries the malformed Monday entry. -/
def malformedUser : User := ⟨1, "UTC", 540, 1020, [⟨some malformedFreeBusy⟩], 0⟩

/-- A schedule with tied start minutes on two days: Monday 09:00-10:00
and Tuesday 09:00-11:00. -/
def tiedFreeBusy : FreeBusy :=
  ⟨none, some [⟨"09:00", "10:00"⟩], some [⟨"09:00", "11:00"⟩], none, none, none, none⟩

/-- A user whose schedule produces two intervals with equal `startTime`. -/
def tiedUser : User := ⟨1, "UTC", 540, 1020, [⟨some tiedFreeBusy⟩], 0⟩

/-- C1: in both resolution variants a working-hour interval is selected
for a request window exactly when its `days` contain the local weekday of
`dateFrom` and both the local minute of day of `dateFrom` (`fm`) and of
`dateTo` (`tm`) lie within `[startTime, endTime]` with both boundaries
inclusive. `selectedSlots` is the selection applied by both handlers. -/
theorem c1_selection_iff (wh : List WeeklyInterval) (day fm tm : Int)
    (s : WeeklyInterval) (sm em : Int)
    (hs : s.startTime = some sm) (he : s.endTime = some em) :
    s ∈ selectedSlots wh day fm tm ↔
      s ∈ wh ∧ day ∈ s.days ∧ sm ≤ fm ∧ fm ≤ em ∧ sm ≤ tm ∧ tm ≤ em := by
  unfold selectedSlots slotMatches
  rw [List.mem_filter]
  simp [hs, he, nge, nle, and_assoc]

/-- Witness for C1 at a boundary input: the window's start minute equals
the interval's `startTime` and its end minute equals `endTime`, and the
interval is still selected. -/
theorem c1_selection_iff_witness :
    (⟨[4], some 600, some 660⟩ : WeeklyInterval) ∈
      selectedSlots [⟨[4], some 600, some 660⟩] 4 600 660 :=
  (c1_selection_iff [⟨[4], some 600, some 660⟩] 4 600 660
    ⟨[4], some 600, some 660⟩ 600 660 rfl rfl).mpr (by decide)

/-- C3: the Working-Hours Builder does not fail on the malformed entry
`{start: "9"}`; it emits an interval whose `startTime` is `NaN` (`none`).
Its codomain has no error outcome at all, so no `ScheduleParseError` is
ever raised, contrary to the specified behaviour. -/
theorem c3_malformed_entry_not_rejected :
    workhours malformedUser.schedule = [⟨[1], none, some 1020⟩] := by decide

/-- C4: with zero parsed intervals the builder yields exactly the one
fallback interval over all seven weekdays with the user's stored default
start/end; with at least one parsed interval the default is unused. -/
theorem c4_default_fallback (u : User) :
    (workhours u.schedule = [] →
      jsSort slotLe (workingHours u) =
        [⟨[0, 1, 2, 3, 4, 5, 6], some u.startTime, some u.endTime⟩])
    ∧ (workhours u.schedule ≠ [] → workingHours u = workhours u.schedule) := by
  constructor
  · intro h
    have hw : workingHours u = [defaultAvailability u] := by
      unfold workingHours
      rw [h]
      simp
    rw [hw]
    rfl
  · intro h
    unfold workingHours
    rw [if_pos]
    simpa using h

/-- Witness for C4: a user with an empty schedule gets the single default
interval, and the malformed-schedule user keeps the parsed list. -/
theorem c4_default_fallback_witness :
    jsSort slotLe (workingHours demoUser) = [⟨[0, 1, 2, 3, 4, 5, 6], some 540, some 1020⟩]
    ∧ workingHours malformedUser = workhours malformedUser.schedule :=
  ⟨(c4_default_fallback demoUser).1 (by decide),
    (c4_default_fallback malformedUser).2 (by decide)⟩

/-- The numeric sort key of an interval (only used on intervals whose
`startTime` is numeric). -/
def startKey (s : WeeklyInterval) : Int := s.startTime.getD 0

theorem mem_insertLe {α : Type} (le : α → α → Bool) (a x : α) (l : List α) :
    x ∈ insertLe le a l ↔ x = a ∨ x ∈ l := by
  induction l with
  | nil => simp [insertLe]
  | cons b bs ih =>
    simp only [insertLe]
    cases h : le a b <;> simp [h, ih, List.mem_cons] <;> tauto

theorem insertLe_perm {α : Type} (le : α → α → Bool) (a : α) (l : List α) :
    (insertLe le a l).Perm (a :: l) := by
  induction l with
  | nil => simp [insertLe]
  | cons b bs ih =>
    simp only [insertLe]
    cases h : le a b
    · simp only [Bool.false_eq_true, if_false]
      exact (ih.cons b).trans (List.Perm.swap a b bs)
    · simp

theorem jsSort_perm {α : Type} (le : α → α → Bool) (l : List α) :
    (jsSort le l).Perm l := by
  induction l with
  | nil => simp [jsSort]
  | cons x xs ih =>
    show (insertLe le x (jsSort le xs)).Perm (x :: xs)
    exact (insertLe_perm le x (jsSort le xs)).trans (ih.cons x)

theorem slotLe_eq_key (a b : WeeklyInterval)
    (ha : a.startTime.isSome = true) (hb : b.startTime.isSome = true) :
    slotLe a b = decide (startKey a ≤ startKey b) := by
  unfold slotLe startKey
  cases hA : a.startTime with
  | none => rw [hA] at ha; cases ha
  | some x =>
    cases hB : b.startTime with
    | none => rw [hB] at hb; cases hb
    | some y => simp

theorem pairwise_insertLe (a : WeeklyInterval) (l : List WeeklyInterval)
    (ha : a.startTime.isSome = true) (hl : ∀ s ∈ l, s.startTime.isSome = true)
    (hp : l.Pairwise (fun x y => startKey x ≤ startKey y)) :
    (insertLe slotLe a l).Pairwise (fun x y => startKey x ≤ startKey y) := by
  induction l with
  | nil => simp [insertLe]
  | cons b bs ih =>
    rw [List.pairwise_cons] at hp
    obtain ⟨hball, hbs⟩ := hp
    have hb : b.startTime.isSome = true := hl b (by simp)
    have hbsmem : ∀ s ∈ bs, s.startTime.isSome = true := fun s hs => hl s (by simp [hs])
    simp only [insertLe]
    cases h : slotLe a b
    · simp only [Bool.false_eq_true, if_false]
      rw [List.pairwise_cons]
      refine ⟨?_, ih hbsmem hbs⟩
      intro c hc
      rcases (mem_insertLe slotLe a c bs).mp hc with hca | hcbs
      · subst hca
        rw [slotLe_eq_key c b ha hb] at h
        simp only [decide_eq_false_iff_not, not_le] at h
        exact le_of_lt h
      · exact hball c hcbs
    · simp only [if_true]
      rw [List.pairwise_cons]
      refine ⟨?_, List.pairwise_cons.mpr ⟨hball, hbs⟩⟩
      intro c hc
      rw [slotLe_eq_key a b ha hb] at h
      simp only [decide_eq_true_eq] at h
      rcases List.mem_cons.mp hc with rfl | hcbs
      · exact h
      · exact le_trans h (hball c hcbs)

theorem jsSort_sorted (l : List WeeklyInterval)
    (hl : ∀ s ∈ l, s.startTime.isSome = true) :
    (jsSort slotLe l).Pairwise (fun x y => startKey x ≤ startKey y) := by
  induction l with
  | nil => simp [jsSort]
  | cons x xs ih =>
    have hxs : ∀ s ∈ xs, s.startTime.isSome = true := fun s hs => hl s (by simp [hs])
    have hmem : ∀ s ∈ jsSort slotLe xs, s.startTime.isSome = true :=
      fun s hs => hxs s ((jsSort_perm slotLe xs).mem_iff.mp hs)
    show (insertLe slotLe x (jsSort slotLe xs)).Pairwise (fun x y => startKey x ≤ startKey y)
    exact pairwise_insertLe x (jsSort slotLe xs) (hl x (by simp)) hmem (ih hxs)

theorem filter_insertLe (k : Int) (a : WeeklyInterval) (l : List WeeklyInterval)
    (ha : a.startTime.isSome = true) (hl : ∀ s ∈ l, s.startTime.isSome = true) :
    (insertLe slotLe a l).filter (fun s => s.startTime == some k) =
      if a.startTime == some k
      then a :: l.filter (fun s => s.startTime == some k)
      else l.filter (fun s => s.startTime == some k) := by
  induction l with
  | nil =>
    simp only [insertLe, List.filter]
    cases hp : (a.startTime == some k) <;> simp [hp]
  | cons b bs ih =>
    have hb : b.startTime.isSome = true := hl b (by simp)
    have hbsmem : ∀ s ∈ bs, s.startTime.isSome = true := fun s hs => hl s (by simp [hs])
    simp only [insertLe]
    cases h : slotLe a b
    · simp only [Bool.false_eq_true, if_false]
      rw [List.filter_cons, ih hbsmem]
      rw [slotLe_eq_key a b ha hb] at h
      simp only [decide_eq_false_iff_not, not_le] at h
      cases hpa : (a.startTime == some k) <;> cases hpb : (b.startTime == some k)
      · simp [hpa, hpb]
      · simp [hpa, hpb]
      · simp [hpa, hpb]
      · exfalso
        have ea : a.startTime = some k := by simpa using hpa
        have eb : b.startTime = some k := by simpa using hpb
        unfold startKey at h
        rw [ea, eb] at h
        simp at h
    · simp only [if_true]
      rw [List.filter_cons]

theorem jsSort_filter_stable (k : Int) (l : List WeeklyInterval)
    (hl : ∀ s ∈ l, s.startTime.isSome = true) :
    (jsSort slotLe l).filter (fun s => s.startTime == some k) =
      l.filter (fun s => s.startTime == some k) := by
  induction l with
  | nil => rfl
  | cons x xs ih =>
    have hxs : ∀ s ∈ xs, s.startTime.isSome = true := fun s hs => hl s (by simp [hs])
    have hmem : ∀ s ∈ jsSort slotLe xs, s.startTime.isSome = true :=
      fun s hs => hxs s ((jsSort_perm slotLe xs).mem_iff.mp hs)
    show (insertLe slotLe x (jsSort slotLe xs)).filter _ = _
    rw [filter_insertLe k x (jsSort slotLe xs) (hl x (by simp)) hmem, ih hxs,
      List.filter_cons]

/-- C5: when every interval of the builder's list has a numeric
`startTime`, the sorted working-hours list is ascending in `startTime`,
is a permutation of the input, keeps the encounter order of intervals
with equal `startTime` (stability, phrased per key `k`), and the slot
resolver's output is a subsequence of it. -/
theorem c5_sorted_stable_subsequence (u : User) (day fm tm k : Int)
    (h : ∀ s ∈ workingHours u, s.startTime.isSome = true) :
    (jsSort slotLe (workingHours u)).Pairwise (fun a b => startKey a ≤ startKey b)
    ∧ (jsSort slotLe (workingHours u)).Perm (workingHours u)
    ∧ (jsSort slotLe (workingHours u)).filter (fun s => s.startTime == some k) =
        (workingHours u).filter (fun s => s.startTime == some k)
    ∧ List.Sublist (selectedSlots (jsSort slotLe (workingHours u)) day fm tm)
        (jsSort slotLe (workingHours u)) :=
  ⟨jsSort_sorted (workingHours u) h, jsSort_perm slotLe (workingHours u),
    jsSort_filter_stable k (workingHours u) h, List.filter_sublist _⟩

/-- Witness for C5 on a schedule with two intervals tied at minute 540:
sortedness, permutation, key-540 stability and the subsequence property
all hold for a concrete request window. -/
theorem c5_sorted_stable_subsequence_witness :
    (jsSort slotLe (workingHours tiedUser)).Pairwise (fun a b => startKey a ≤ startKey b)
    ∧ (jsSort slotLe (workingHours tiedUser)).Perm (workingHours tiedUser)
    ∧ (jsSort slotLe (workingHours tiedUser)).filter (fun s => s.startTime == some 540) =
        (workingHours tiedUser).filter (fun s => s.startTime == some 540)
    ∧ List.Sublist (selectedSlots (jsSort slotLe (workingHours tiedUser)) 1 545 550)
        (jsSort slotLe (workingHours tiedUser)) :=
  c5_sorted_stable_subsequence tiedUser 1 545 550 540 (by decide)

/-- dayjs truncates `diff(..., "hours")` toward zero, so for an ordered
window the 24-hour guard fires exactly when the span reaches 24 hours
(86400000 ms). -/
theorem jsDiffHours_ge_24_iff (f t : Int) (h : f ≤ t) :
    24 ≤ jsDiffHours f t ↔ 86400000 ≤ t - f := by
  unfold jsDiffHours
  rw [if_pos (by omega)]
  omega

/-- C7 counterexample: a request window with `dateFrom = dateTo` is NOT
rejected with the invalid-range error, in either variant: the availability
variant resolves it to a 200 payload and the slot-fetch variant does not
return the range error. -/
theorem c7_equal_bounds_pass :
    availHandler utcdb (some demoUser) ⟨some 36000000, some 36000000⟩ =
      .ok "UTC" [⟨[0, 1, 2, 3, 4, 5, 6], some 540, some 1020⟩] true
    ∧ slotHandler utcdb 0 (some demoUser) [] ⟨some 36000000, some 36000000⟩ ≠
      .invalidRange := by decide

/-- C7 amended: both variants reject a parseable window with InvalidRange
exactly when `dateFrom` is strictly after `dateTo`; equal bounds pass the
range check. -/
theorem c7_range_check_strict (tzdb : String → Int → Int) (now : Int)
    (lu : Option User) (db : List Booking) (f t : Int) :
    (slotHandler tzdb now lu db ⟨some f, some t⟩ = .invalidRange ↔ t < f)
    ∧ (availHandler tzdb lu ⟨some f, some t⟩ = .invalidRange ↔ t < f) := by
  constructor
  · by_cases htf : t < f
    · simp [slotHandler, htf]
    · simp only [slotHandler, if_neg htf]
      cases lu with
      | none => split_ifs <;> simp [htf]
      | some u =>
        split_ifs <;> simp only [reduceCtorEq, iff_false, htf, not_false_eq_true] <;>
          (try (split <;> simp))
  · by_cases htf : t < f
    · simp [availHandler, htf]
    · simp only [availHandler, if_neg htf]
      cases lu with
      | none => simp [htf]
      | some u => simp [htf]

/-- C6: a parseable, ordered window spanning 24 hours or more makes the
slot-fetch variant fail with the slot-too-long error (for any user-lookup
outcome), while the availability variant ignores the span and proceeds to
resolution. -/
theorem c6_slot_too_long (tzdb : String → Int → Int) (now : Int) (lu : Option User)
    (db : List Booking) (u : User) (f t : Int)
    (hft : f ≤ t) (hspan : 86400000 ≤ t - f) :
    slotHandler tzdb now lu db ⟨some f, some t⟩ = .slotTooLong
    ∧ availHandler tzdb (some u) ⟨some f, some t⟩ =
        .ok u.timeZone
          (selectedSlots (jsSort slotLe (workingHours u)) (weekday (tzdb u.timeZone) f)
            (minuteOfDay (tzdb u.timeZone) f) (minuteOfDay (tzdb u.timeZone) t))
          (!(selectedSlots (jsSort slotLe (workingHours u)) (weekday (tzdb u.timeZone) f)
            (minuteOfDay (tzdb u.timeZone) f) (minuteOfDay (tzdb u.timeZone) t)).isEmpty) := by
  constructor
  · simp only [slotHandler, if_neg (by omega : ¬ t < f),
      if_pos ((jsDiffHours_ge_24_iff f t hft).mpr hspan)]
  · simp only [availHandler, if_neg (by omega : ¬ t < f)]

/-- Witness for C6 at a 25-hour window: the slot-fetch variant rejects it
and the availability variant resolves it. -/
theorem c6_slot_too_long_witness :
    slotHandler utcdb 0 none [] ⟨some 36000000, some 126000000⟩ = .slotTooLong
    ∧ availHandler utcdb (some demoUser) ⟨some 36000000, some 126000000⟩ =
        .ok demoUser.timeZone
          (selectedSlots (jsSort slotLe (workingHours demoUser))
            (weekday (utcdb demoUser.timeZone) 36000000)
            (minuteOfDay (utcdb demoUser.timeZone) 36000000)
            (minuteOfDay (utcdb demoUser.timeZone) 126000000))
          (!(selectedSlots (jsSort slotLe (workingHours demoUser))
            (weekday (utcdb demoUser.timeZone) 36000000)
            (minuteOfDay (utcdb demoUser.timeZone) 36000000)
            (minuteOfDay (utcdb demoUser.timeZone) 126000000)).isEmpty) :=
  c6_slot_too_long utcdb 0 none [] demoUser 36000000 126000000 (by decide) (by decide)

/-- C8: for a parseable ordered window the availability variant performs
no further checks: with the user present it returns the 200 payload built
only from the working hours (no 24-hour cap, no clock, no bookings appear
among its inputs), and with the user absent it throws the unhandled
"No user found" error instead of a structured 404. -/
theorem c8_availability_guard (tzdb : String → Int → Int) (lu : Option User) (f t : Int)
    (hft : f ≤ t) :
    (∀ u, lu = some u →
      availHandler tzdb lu ⟨some f, some t⟩ =
        .ok u.timeZone
          (selectedSlots (jsSort slotLe (workingHours u)) (weekday (tzdb u.timeZone) f)
            (minuteOfDay (tzdb u.timeZone) f) (minuteOfDay (tzdb u.timeZone) t))
          (!(selectedSlots (jsSort slotLe (workingHours u)) (weekday (tzdb u.timeZone) f)
            (minuteOfDay (tzdb u.timeZone) f) (minuteOfDay (tzdb u.timeZone) t)).isEmpty))
    ∧ (lu = none → availHandler tzdb lu ⟨some f, some t⟩ = .userError) := by
  constructor
  · rintro u rfl
    simp only [availHandler, if_neg (by omega : ¬ t < f)]
  · rintro rfl
    simp only [availHandler, if_neg (by omega : ¬ t < f)]

/-- Witness for C8: the availability variant resolves a present user and
throws on an absent one. -/
theorem c8_availability_guard_witness :
    availHandler utcdb (some demoUser) ⟨some 36000000, some 37800000⟩ =
      .ok demoUser.timeZone
        (selectedSlots (jsSort slotLe (workingHours demoUser))
          (weekday (utcdb demoUser.timeZone) 36000000)
          (minuteOfDay (utcdb demoUser.timeZone) 36000000)
          (minuteOfDay (utcdb demoUser.timeZone) 37800000))
        (!(selectedSlots (jsSort slotLe (workingHours demoUser))
          (weekday (utcdb demoUser.timeZone) 36000000)
          (minuteOfDay (utcdb demoUser.timeZone) 36000000)
          (minuteOfDay (utcdb demoUser.timeZone) 37800000)).isEmpty)
    ∧ availHandler utcdb none ⟨some 0, some 0⟩ = .userError :=
  ⟨(c8_availability_guard utcdb (some demoUser) 36000000 37800000 (by decide)).1
      demoUser rfl,
    (c8_availability_guard utcdb none 0 0 (by decide)).2 rfl⟩

/-- C9: in the slot-fetch variant the user-existence check sits after the
range and 24-hour checks and before the past-time check: an inverted or
oversized window yields the range error even with no user, and a
nonexistent user with a past `dateFrom` yields the 404, not the
past-booking error. -/
theorem c9_guard_order (tzdb : String → Int → Int) (now : Int)
    (db : List Booking) (f t : Int) :
    (t < f → slotHandler tzdb now none db ⟨some f, some t⟩ = .invalidRange)
    ∧ (f ≤ t → 86400000 ≤ t - f →
        slotHandler tzdb now none db ⟨some f, some t⟩ = .slotTooLong)
    ∧ (f ≤ t → t - f < 86400000 → f < now →
        slotHandler tzdb now none db ⟨some f, some t⟩ = .userNotFound) := by
  refine ⟨?_, ?_, ?_⟩
  · intro htf
    simp [slotHandler, htf]
  · intro hft hspan
    simp only [slotHandler, if_neg (by omega : ¬ t < f),
      if_pos ((jsDiffHours_ge_24_iff f t hft).mpr hspan)]
  · intro hft hspan hpast
    have hd : ¬ 24 ≤ jsDiffHours f t := by
      rw [jsDiffHours_ge_24_iff f t hft]; omega
    simp only [slotHandler, if_neg (by omega : ¬ t < f), if_neg hd]

/-- Witness for C9: the three orderings at concrete inputs, including a
nonexistent user with a `dateFrom` one half-day before "now". -/
theorem c9_guard_order_witness :
    slotHandler utcdb 0 none [] ⟨some 1, some 0⟩ = .invalidRange
    ∧ slotHandler utcdb 0 none [] ⟨some 0, some 86400000⟩ = .slotTooLong
    ∧ slotHandler utcdb 99999999 none [] ⟨some 36000000, some 37800000⟩ = .userNotFound :=
  ⟨(c9_guard_order utcdb 0 [] 1 0).1 (by decide),
    (c9_guard_order utcdb 0 [] 0 86400000).2.1 (by decide) (by decide),
    (c9_guard_order utcdb 99999999 [] 36000000 37800000).2.2 (by decide) (by decide)
      (by decide)⟩

/-- C2 counterexample: a confirmed accepted booking of the user that
touches (overlaps) the requested window but starts before it leaves the
returned `available` flag true: the handler's booking query only catches
bookings whose start instant lies inside the window. -/
theorem c2_touching_booking_ignored :
    bookingQualifies demoUser overlappingBooking = true
    ∧ touchesWindow overlappingBooking 36000000 37800000 = true
    ∧ (slotHandler utcdb 0 (some demoUser) [overlappingBooking]
        ⟨some 36000000, some 37800000⟩).availableOf = some true := by decide

/-- C2 amended: for a request passing all guard checks, `available` is
true exactly when the selected slots are non-empty and no confirmed,
accepted booking of the user STARTS within the requested window
(inclusive); bookings merely overlapping the window from before are not
consulted. -/
theorem c2_available_iff (tzdb : String → Int → Int) (now : Int) (u : User)
    (db : List Booking) (f t : Int)
    (hft : f ≤ t) (hspan : t - f < 86400000) (hpast : now ≤ f)
    (hnotice : u.minimumBookingNotice = 0 ∨ now + u.minimumBookingNotice * 60000 ≤ f) :
    (slotHandler tzdb now (some u) db ⟨some f, some t⟩).availableOf = some true ↔
      selectedSlots (jsSort slotLe (workingHours u)) (weekday (tzdb u.timeZone) f)
          (minuteOfDay (tzdb u.timeZone) f) (minuteOfDay (tzdb u.timeZone) t) ≠ []
      ∧ ∀ b ∈ db, bookingQualifies u b = true → ¬ (f ≤ b.startTime ∧ b.startTime ≤ t) := by
  have hd : ¬ 24 ≤ jsDiffHours f t := by
    rw [jsDiffHours_ge_24_iff f t hft]; omega
  have hn : ¬ (u.minimumBookingNotice ≠ 0 ∧ f < now + u.minimumBookingNotice * 60000) := by
    rcases hnotice with h0 | hle
    · simp [h0]
    · rintro ⟨_, hlt⟩; omega
  simp only [slotHandler, if_neg (by omega : ¬ t < f), if_neg hd,
    if_neg (by omega : ¬ f < now), if_neg hn, SlotResponse.availableOf]
  simp only [Option.some_inj]
  simp only [Bool.and_eq_true, Bool.not_eq_true', List.isEmpty_eq_false, List.isEmpty_iff,
    queryBookings, bookingQualifies, List.filter_eq_nil_iff, Bool.and_eq_true,
    beq_iff_eq, decide_eq_true_eq, not_and, and_imp]

/-- Witness for C2 amended: with the before-the-window booking present the
flag is true and the right-hand characterization holds as well. -/
theorem c2_available_iff_witness :
    ((slotHandler utcdb 0 (some demoUser) [overlappingBooking]
        ⟨some 36000000, some 37800000⟩).availableOf = some true ↔
      selectedSlots (jsSort slotLe (workingHours demoUser))
          (weekday (utcdb demoUser.timeZone) 36000000)
          (minuteOfDay (utcdb demoUser.timeZone) 36000000)
          (minuteOfDay (utcdb demoUser.timeZone) 37800000) ≠ []
      ∧ ∀ b ∈ [overlappingBooking], bookingQualifies demoUser b = true →
          ¬ (36000000 ≤ b.startTime ∧ b.startTime ≤ 37800000)) :=
  c2_available_iff utcdb 0 demoUser [overlappingBooking] 36000000 37800000
    (by decide) (by decide) (by decide) (Or.inl rfl)

theorem nadd_none (a : Option Int) : nadd a none = none := by
  cases a <;> rfl

theorem nle_none_left (b : Option Int) : nle none b = false := by
  cases b <;> rfl

theorem nle_none_right (a : Option Int) : nle a none = false := by
  cases a <;> rfl

theorem foldl_append_intervals (sl : List Schedule) (acc : List WeeklyInterval) :
    sl.foldl (fun a s => a ++ scheduleIntervals s) acc =
      acc ++ (sl.map scheduleIntervals).flatten := by
  induction sl generalizing acc with
  | nil => simp
  | cons s ss ih =>
    simp only [List.foldl_cons, List.map_cons, List.flatten_cons, ih, List.append_assoc]

theorem workhours_eq (sl : List Schedule) :
    workhours sl = (sl.map scheduleIntervals).flatten := by
  simpa [workhours] using foldl_append_intervals sl []

theorem FreeBusy.get_of_seven_le (fb : FreeBusy) (d : Nat) (h : 7 ≤ d) :
    fb.get d = none := by
  match d, h with
  | n + 7, _ => rfl

theorem parseTime_mem_workhours (u : User) (s : Schedule) (fb : FreeBusy) (d : Nat)
    (ts : List TimeStr) (e : TimeStr)
    (hs : s ∈ u.schedule) (hfb : s.freeBusyTimes = some fb)
    (hts : fb.get d = some ts) (he : e ∈ ts) :
    parseTime (Int.ofNat d) e ∈ workhours u.schedule := by
  rw [workhours_eq, List.mem_flatten]
  refine ⟨scheduleIntervals s, List.mem_map_of_mem _ hs, ?_⟩
  unfold scheduleIntervals
  rw [List.mem_flatten]
  have hd : d < 7 := by
    by_contra hge
    rw [FreeBusy.get_of_seven_le fb d (by omega)] at hts
    cases hts
  refine ⟨dayIntervals s d, List.mem_map_of_mem _ (List.mem_range.mpr hd), ?_⟩
  simp only [dayIntervals, hfb, hts]
  exact List.mem_map_of_mem _ he

/-- C10: a schedule entry whose start or end string has no colon-delimited
minute still yields an emitted interval, with `NaN` (`none`) on the
malformed side; such an interval never satisfies the slot-matching
predicate, yet it makes the parsed list non-empty, so the
default-availability fallback is suppressed. -/
theorem c10_malformed_entry_suppresses_default (u : User) (s : Schedule) (fb : FreeBusy)
    (d : Nat) (ts : List TimeStr) (e : TimeStr) (day fm tm : Int)
    (hs : s ∈ u.schedule) (hfb : s.freeBusyTimes = some fb)
    (hts : fb.get d = some ts) (he : e ∈ ts)
    (hm : (splitOnChar ':' e.start.toList)[1]? = none ∨
      (splitOnChar ':' e.«end».toList)[1]? = none) :
    ((parseTime (Int.ofNat d) e).startTime = none ∨ (parseTime (Int.ofNat d) e).endTime = none)
    ∧ slotMatches day fm tm (parseTime (Int.ofNat d) e) = false
    ∧ workhours u.schedule ≠ []
    ∧ workingHours u = workhours u.schedule := by
  have hmem := parseTime_mem_workhours u s fb d ts e hs hfb hts he
  have hne : workhours u.schedule ≠ [] := List.ne_nil_of_mem hmem
  have hnan : (parseTime (Int.ofNat d) e).startTime = none ∨
      (parseTime (Int.ofNat d) e).endTime = none := by
    rcases hm with h1 | h1
    · left
      simp only [parseTime, h1]
      rw [show parseIntJs none = none from rfl, nadd_none]
    · right
      simp only [parseTime, h1]
      rw [show parseIntJs none = none from rfl, nadd_none]
  refine ⟨hnan, ?_, hne, ?_⟩
  · unfold slotMatches
    rcases hnan with h2 | h2
    · rw [h2]
      simp [nge, nle_none_left]
    · rw [h2]
      simp [nle_none_right]
  · unfold workingHours
    rw [if_pos (show (workhours u.schedule).length ≠ 0 from
      fun hlen => hne (List.length_eq_zero.mp hlen))]

/-- Witness for C10 at the malformed Monday entry `{start: "9"}`: the
emitted interval is `NaN`-valued, unmatchable, and blocks the fallback. -/
theorem c10_malformed_entry_suppresses_default_witness :
    ((parseTime 1 ⟨"9", "17:00"⟩).startTime = none ∨
      (parseTime 1 ⟨"9", "17:00"⟩).endTime = none)
    ∧ slotMatches 1 600 630 (parseTime 1 ⟨"9", "17:00"⟩) = false
    ∧ workhours malformedUser.schedule ≠ []
    ∧ workingHours malformedUser = workhours malformedUser.schedule :=
  c10_malformed_entry_suppresses_default malformedUser ⟨some malformedFreeBusy⟩
    malformedFreeBusy 1 [⟨"9", "17:00"⟩] ⟨"9", "17:00"⟩ 1 600 630
    (by decide) rfl rfl (by decide) (Or.inl (by decide))
